import Mathlib

/-!
Shallow embedding of `src/csv_extractor.py` (CSV Extractor for the JHU CSSE
COVID-19 daily reports).  Python strings are modelled as `List Char`; Python
exceptions (TypeError on string item assignment, IndexError, KeyError,
ValueError from `list.index`) are modelled by `Option`, with `none` standing
for a crash.  The Python value `None` appearing inside rows is modelled by
`Option` at the field level.
-/

set_option autoImplicit false

namespace CsvExtractor

/-- Python strings, modelled as lists of characters. -/
abbrev Str : Type := List Char

/-- Python `s.split(sep)` for a single-character separator: splits at every
occurrence of `sep`, keeping empty pieces, and returns at least one piece. -/
def splitChar (sep : Char) : List Char → List (List Char)
  | [] => [[]]
  | c :: cs =>
    if c = sep then [] :: splitChar sep cs
    else
      match splitChar sep cs with
      | [] => [[c]]
      | p :: ps => (c :: p) :: ps

/-- Python `sep.join(pieces)` for a single-character separator. -/
def joinSep (sep : Char) : List (List Char) → List Char
  | [] => []
  | [p] => p
  | p :: q :: ps => p ++ sep :: joinSep sep (q :: ps)

/-- Python `s.zfill(w)`: left-pad with `'0'` up to width `w`; a leading sign
character keeps its place and the zeros are inserted after it. -/
def zfill (w : Nat) (s : List Char) : List Char :=
  if w ≤ s.length then s
  else
    match s with
    | [] => List.replicate w '0'
    | c :: cs =>
      if c = '+' ∨ c = '-' then c :: (List.replicate (w - (c :: cs).length) '0' ++ cs)
      else List.replicate (w - (c :: cs).length) '0' ++ (c :: cs)

/-- Embedding of `format_datestr` (src/csv_extractor.py lines 36-47).
If the token contains `'/'` it is split on `'/'`, otherwise if it contains
`'-'` it is split on `'-'`; with neither separator the Python code attempts
item assignment on a `str` and raises TypeError (`none` here).  The first two
pieces are zero-filled to width 2 and everything is re-joined with `'-'`. -/
def format_datestr (datestr : Str) : Option Str :=
  if '/' ∈ datestr then
    match splitChar '/' datestr with
    | p0 :: p1 :: rest => some (joinSep '-' (zfill 2 p0 :: zfill 2 p1 :: rest))
    | _ => none
  else if '-' ∈ datestr then
    match splitChar '-' datestr with
    | p0 :: p1 :: rest => some (joinSep '-' (zfill 2 p0 :: zfill 2 p1 :: rest))
    | _ => none
  else none

/-- Embedding of the module-level `country_index` dict (lines 27-32): the
index of the Country_Region column for each supported column count.  A lookup
with any other key raises KeyError in Python, modelled by `none`. -/
def country_index (n : Nat) : Option Nat :=
  if n = 6 then some 1
  else if n = 8 then some 1
  else if n = 12 then some 3
  else if n = 14 then some 3
  else none

/-- Embedding of the module-level `target` dict (line 34):
`{'US': {'Arizona': ['Pima']}, 'Singapore': {}}` as an association list. -/
def target : List (Str × List (Str × List Str)) :=
  [(("US".toList), [(("Arizona".toList), [("Pima".toList)])]),
   (("Singapore".toList), [])]

/-- Association-list lookup with exact (case-sensitive) string keys, the
model of Python dict indexing on string keys. -/
def lookupStr {α : Type} (k : Str) : List (Str × α) → Option α
  | [] => none
  | (k', v) :: rest => if k = k' then some v else lookupStr k rest

/-- Python list indexing `row[i]` with an `Int` index: a negative index wraps
around from the end of the list; an index out of range raises IndexError
(`none` here). -/
def pyIdx (row : List Str) (i : Int) : Option Str :=
  if 0 ≤ i then row.get? i.toNat
  else if 0 ≤ (row.length : Int) + i then row.get? ((row.length : Int) + i).toNat
  else none

/-- Embedding of `update_format` (lines 49-74).  The row's fields are plain
strings; the output row may contain Python `None` entries, hence elements of
type `Option Str`.  For `cols ≥ 12` the result is `[datestr] + row`; otherwise
a 15-element row of `None` is built and the six (or eight) source fields are
placed at the fixed historical offsets.  `none` models an IndexError when the
row is too short for the accesses the code performs. -/
def update_format (row : List Str) (cols : Nat) (datestr : Str) : Option (List (Option Str)) :=
  if 12 ≤ cols then
    some (some datestr :: row.map some)
  else
    match row.get? 0, row.get? 1, row.get? 2, row.get? 3, row.get? 4, row.get? 5 with
    | some r0, some r1, some r2, some r3, some r4, some r5 =>
      let base : List (Option Str) :=
        (((((((List.replicate 15 (none : Option Str)).set 0 (some datestr)).set 2
          (some r0)).set 4 (some r1)).set 5 (some r2)).set 8 (some r3)).set 9
          (some r4)).set 10 (some r5)
      if cols = 8 then
        match row.get? 6, row.get? 7 with
        | some r6, some r7 => some ((base.set 6 (some r6)).set 7 (some r7))
        | _, _ => none
      else
        some base
    | _, _, _, _, _, _ => none

/-- Embedding of the per-row classification logic of `append_contents`
(lines 106-122): resolve the country field through `country_index`, then walk
the nested `target` mapping; `row[index-1]` is the province/state and, for
the US only, `row[index-2]` is the county.  `some true` means the row is a
target row, `some false` that it is skipped, `none` that the Python code
raises (KeyError on an unsupported row length, or IndexError). -/
def classify_row (row : List Str) : Option Bool :=
  match country_index row.length with
  | none => none
  | some index =>
    match pyIdx row (index : Int) with
    | none => none
    | some country =>
      match lookupStr country target with
      | none => some false
      | some provinces =>
        if provinces.length = 0 then some true
        else
          match pyIdx row ((index : Int) - 1) with
          | none => none
          | some province =>
            match lookupStr province provinces with
            | none => some false
            | some counties =>
              if country = ("US".toList) then
                match pyIdx row ((index : Int) - 2) with
                | none => none
                | some county => some (decide (county ∈ counties))
              else some true

/-- The sequence of `(row, cols)` argument pairs that `append_contents`
(lines 101-126) passes to `update_format` while processing the data rows of
one file: empty rows are skipped, non-target rows are skipped, and each
target row is passed together with `hdrLen`, the length of the file's header
row.  `none` models a crash while classifying some row. -/
def normalizer_go (hdrLen : Nat) : List (List Str) → Option (List (List Str × Nat))
  | [] => some []
  | row :: rest =>
    if row.length = 0 then normalizer_go hdrLen rest
    else
      match classify_row row with
      | none => none
      | some false => normalizer_go hdrLen rest
      | some true =>
        match normalizer_go hdrLen rest with
        | none => none
        | some calls => some ((row, hdrLen) :: calls)

/-- Embedding of the `update_format` call discipline of `append_contents`
(lines 93-126): the header row is checked to have at most 14 columns (more
aborts the run), and then every surviving target row is normalized with
`cols = len(col_names)`, the header row's field count. -/
def normalizer_calls (col_names : List Str) (rows : List (List Str)) :
    Option (List (List Str × Nat)) :=
  if 14 < col_names.length then none
  else normalizer_go col_names.length rows

/-- Python `filenames.index(key)`: the index of the first occurrence of
`key`, or ValueError (`none`) when absent. -/
def index_of (key : Str) : List Str → Option Nat
  | [] => none
  | s :: rest => if s = key then some 0 else (index_of key rest).map (· + 1)

/-- Embedding of the incremental-update branch of `main` (lines 177-182):
the last recorded date is normalized, `'.csv'` is appended, the resulting
name is located in the sorted upstream filename list, and every filename
strictly after it is kept.  `none` models either a crash of `format_datestr`
or the ValueError raised when the name is not present. -/
def resolver (filenames : List Str) (lastDate : Str) : Option (List Str) :=
  match format_datestr lastDate with
  | none => none
  | some d =>
    match index_of (d ++ (".csv".toList)) filenames with
    | none => none
    | some i => some (filenames.drop (i + 1))

/-! ### Helper lemmas -/

theorem splitChar_ne_nil (sep : Char) (s : List Char) : splitChar sep s ≠ [] := by
  cases s with
  | nil => simp [splitChar]
  | cons c cs =>
    by_cases hc : c = sep
    · simp [splitChar, hc]
    · simp only [splitChar, if_neg hc]
      cases splitChar sep cs <;> simp

theorem joinSep_splitChar (sep : Char) (s : List Char) :
    joinSep sep (splitChar sep s) = s := by
  induction s with
  | nil => rfl
  | cons c cs ih =>
    by_cases hc : c = sep
    · subst hc
      simp only [splitChar, if_pos rfl]
      cases h : splitChar c cs with
      | nil => exact absurd h (splitChar_ne_nil c cs)
      | cons q qs =>
        rw [h] at ih
        show [] ++ c :: joinSep c (q :: qs) = c :: cs
        rw [List.nil_append, ih]
    · simp only [splitChar, if_neg hc]
      cases h : splitChar sep cs with
      | nil => exact absurd h (splitChar_ne_nil sep cs)
      | cons p ps =>
        rw [h] at ih
        cases ps with
        | nil =>
          show c :: p = c :: cs
          simp only [joinSep] at ih
          rw [ih]
        | cons q qs =>
          show (c :: p) ++ sep :: joinSep sep (q :: qs) = c :: cs
          simp only [joinSep] at ih
          rw [List.cons_append, ih]

theorem splitChar_eq_single {sep : Char} {s : List Char} (h : sep ∉ s) :
    splitChar sep s = [s] := by
  induction s with
  | nil => rfl
  | cons c cs ih =>
    have hc : ¬ (c = sep) := by rintro rfl; exact h (List.mem_cons_self _ _)
    have hcs : sep ∉ cs := fun hm => h (List.mem_cons_of_mem _ hm)
    simp only [splitChar, if_neg hc, ih hcs]

theorem splitChar_two_of_mem {sep : Char} {s : List Char} (h : sep ∈ s) :
    ∃ p0 p1 rest, splitChar sep s = p0 :: p1 :: rest := by
  induction s with
  | nil => cases h
  | cons c cs ih =>
    by_cases hc : c = sep
    · subst hc
      cases hsc : splitChar c cs with
      | nil => exact absurd hsc (splitChar_ne_nil c cs)
      | cons q qs => exact ⟨[], q, qs, by simp [splitChar, hsc]⟩
    · have hcs : sep ∈ cs := by
        cases h with
        | head => exact absurd rfl hc
        | tail _ hm => exact hm
      obtain ⟨p0, p1, rest, hsp⟩ := ih hcs
      exact ⟨c :: p0, p1, rest, by simp [splitChar, if_neg hc, hsp]⟩

theorem zfill_of_le {w : Nat} {s : List Char} (h : w ≤ s.length) : zfill w s = s := by
  simp [zfill, if_pos h]

theorem length_eq_six {α : Type} {l : List α} (h : l.length = 6) :
    ∃ a b c d e f, l = [a, b, c, d, e, f] := by
  rcases l with _ | ⟨a, _ | ⟨b, _ | ⟨c, _ | ⟨d, _ | ⟨e, _ | ⟨f, _ | ⟨g, t⟩⟩⟩⟩⟩⟩⟩ <;>
    simp only [List.length_nil, List.length_cons] at h <;> try omega
  exact ⟨a, b, c, d, e, f, rfl⟩

theorem length_eq_eight {α : Type} {l : List α} (h : l.length = 8) :
    ∃ a b c d e f g h', l = [a, b, c, d, e, f, g, h'] := by
  rcases l with
    _ | ⟨a, _ | ⟨b, _ | ⟨c, _ | ⟨d, _ | ⟨e, _ | ⟨f, _ | ⟨g, _ | ⟨k, _ | ⟨m, t⟩⟩⟩⟩⟩⟩⟩⟩⟩ <;>
    simp only [List.length_nil, List.length_cons] at h <;> try omega
  exact ⟨a, b, c, d, e, f, g, k, rfl⟩

theorem index_of_eq_none {key : Str} {l : List Str} (h : key ∉ l) :
    index_of key l = none := by
  induction l with
  | nil => rfl
  | cons s rest ih =>
    have hs : ¬ (s = key) := by rintro rfl; exact h (List.mem_cons_self _ _)
    have hr : key ∉ rest := fun hm => h (List.mem_cons_of_mem _ hm)
    simp [index_of, if_neg hs, ih hr]

theorem index_of_append {key : Str} {pre post : List Str} (h : key ∉ pre) :
    index_of key (pre ++ key :: post) = some pre.length := by
  induction pre with
  | nil => simp [index_of]
  | cons s rest ih =>
    have hs : ¬ (s = key) := by rintro rfl; exact h (List.mem_cons_self _ _)
    have hr : key ∉ rest := fun hm => h (List.mem_cons_of_mem _ hm)
    simp [index_of, if_neg hs, ih hr]

theorem drop_append_cons {α : Type} (pre : List α) (x : α) (post : List α) :
    (pre ++ x :: post).drop (pre.length + 1) = post := by
  induction pre with
  | nil => simp
  | cons a rest ih => simp [ih]

theorem normalizer_go_cols {hdrLen : Nat} {rows : List (List Str)}
    {calls : List (List Str × Nat)} (h : normalizer_go hdrLen rows = some calls) :
    ∀ p ∈ calls, p.2 = hdrLen := by
  induction rows generalizing calls with
  | nil =>
    simp only [normalizer_go, Option.some.injEq] at h
    subst h
    intro p hp
    cases hp
  | cons row rest ih =>
    simp only [normalizer_go] at h
    split at h
    · exact ih h
    · split at h
      · cases h
      · exact ih h
      · split at h
        · cases h
        · rename_i calls' hgo
          simp only [Option.some.injEq] at h
          subst h
          intro p hp
          cases hp with
          | head => rfl
          | tail _ hp' => exact ih hgo p hp'

/-! ### Claim theorems -/

/-- C3: for every 6-field or 8-field input row, `update_format` builds a
15-element row of nulls and places source index 0 at output index 2 (Admin2),
1 at 4 (Country_Region), 2 at 5 (Last_Update), 3 at 8 (Confirmed), 4 at 9
(Deaths), 5 at 10 (Recovered), and for the 8-field layout additionally 6 at 6
(Lat) and 7 at 7 (Long_); every other output position remains null except the
date at position 0. -/
theorem C3_legacy_layout_mapping :
    (∀ (r0 r1 r2 r3 r4 r5 d : Str),
      update_format [r0, r1, r2, r3, r4, r5] 6 d =
        some [some d, none, some r0, none, some r1, some r2, none, none,
              some r3, some r4, some r5, none, none, none, none]) ∧
    (∀ (r0 r1 r2 r3 r4 r5 r6 r7 d : Str),
      update_format [r0, r1, r2, r3, r4, r5, r6, r7] 8 d =
        some [some d, none, some r0, none, some r1, some r2, some r6, some r7,
              some r3, some r4, some r5, none, none, none, none]) :=
  ⟨fun _ _ _ _ _ _ _ => rfl, fun _ _ _ _ _ _ _ _ _ => rfl⟩

/-- C4: for every 14-field row `r` and every date string `D`, `update_format`
applied to `r` with count 14 and date `D` returns exactly the 15-field list
`[D]` followed by the 14 fields of `r` in order. -/
theorem C4_fourteen_roundtrip (row : List Str) (d : Str) (h : row.length = 14) :
    update_format row 14 d = some (some d :: row.map some) ∧
    (some d :: row.map some).length = 15 :=
  ⟨rfl, by simp [h]⟩

/-- Witness for C4 at a concrete 14-field row. -/
theorem C4_fourteen_roundtrip_witness :
    update_format (List.replicate 14 ("x".toList)) 14 ("01-01-2022".toList) =
      some (some ("01-01-2022".toList) :: (List.replicate 14 ("x".toList)).map some) ∧
    (some ("01-01-2022".toList) :: (List.replicate 14 ("x".toList)).map some).length = 15 :=
  C4_fourteen_roundtrip (List.replicate 14 ("x".toList)) ("01-01-2022".toList) (by decide)

/-- C1 (amended): for field counts 6, 8 and 14 with a matching row,
`update_format` returns a row of exactly 15 fields, but for field count 12 it
returns 13 fields (`[date] + row`); and `update_format` itself does not fail
for every unsupported count, while the driver's `country_index` lookup does
fail for any row length outside {6, 8, 12, 14}. -/
theorem C1_field_counts_amended (row : List Str) (d : Str) :
    (row.length = 6 → (update_format row 6 d).map List.length = some 15) ∧
    (row.length = 8 → (update_format row 8 d).map List.length = some 15) ∧
    (row.length = 14 → (update_format row 14 d).map List.length = some 15) ∧
    (row.length = 12 → (update_format row 12 d).map List.length = some 13) ∧
    (∀ n : Nat, ¬ (n = 6 ∨ n = 8 ∨ n = 12 ∨ n = 14) → country_index n = none) := by
  refine ⟨?_, ?_, ?_, ?_, ?_⟩
  · intro h
    obtain ⟨a, b, c, e, f, g, rfl⟩ := length_eq_six h
    rfl
  · intro h
    obtain ⟨a, b, c, e, f, g, k, m, rfl⟩ := length_eq_eight h
    rfl
  · intro h
    simp [update_format, h]
  · intro h
    simp [update_format, h]
  · intro n hn
    push_neg at hn
    obtain ⟨h6, h8, h12, h14⟩ := hn
    simp [country_index, h6, h8, h12, h14]

/-- Witness for C1 (amended) at concrete rows of each length. -/
theorem C1_field_counts_witness :
    (update_format (List.replicate 6 ("x".toList)) 6 ("d".toList)).map List.length = some 15 ∧
    (update_format (List.replicate 12 ("x".toList)) 12 ("d".toList)).map List.length = some 13 ∧
    country_index 7 = none :=
  ⟨(C1_field_counts_amended (List.replicate 6 ("x".toList)) ("d".toList)).1 (by decide),
   (C1_field_counts_amended (List.replicate 12 ("x".toList)) ("d".toList)).2.2.2.1 (by decide),
   (C1_field_counts_amended [] ("d".toList)).2.2.2.2 7 (by decide)⟩

/-- Counterexample for C1 as stated: a 12-field row is normalized to 13
fields, not 15, and a 7-field row does not make `update_format` fail — it
returns a 15-field row. -/
theorem C1_unsupported_counterexample :
    (update_format (List.replicate 12 ("x".toList)) 12 ("01-01-2022".toList)).map
      List.length = some 13 ∧
    (update_format (List.replicate 7 ("x".toList)) 7 ("01-01-2022".toList)).map
      List.length = some 15 := by
  decide

/-- C2 (amended): for every row emitted by the driver, the `cols` argument
passed to `update_format` equals the header row's field count, and therefore
equals the row's own field count exactly when the row's length equals the
header's. -/
theorem C2_cols_equals_header_amended (col_names : List Str) (rows : List (List Str))
    (calls : List (List Str × Nat)) (h : normalizer_calls col_names rows = some calls)
    (p : List Str × Nat) (hp : p ∈ calls) :
    p.2 = col_names.length ∧ (p.1.length = col_names.length → p.2 = p.1.length) := by
  have hgo : normalizer_go col_names.length rows = some calls := by
    unfold normalizer_calls at h
    split at h
    · cases h
    · exact h
  have hc := normalizer_go_cols hgo p hp
  exact ⟨hc, fun hl => by rw [hc, hl]⟩

/-- Witness for C2 (amended) at a concrete file: a 14-name header and one
accepted 12-field row. -/
theorem C2_cols_equals_header_witness :
    (([("a".toList), ("b".toList), ("c".toList), ("Singapore".toList), ("e".toList),
       ("f".toList), ("g".toList), ("h".toList), ("i".toList), ("j".toList),
       ("k".toList), ("l".toList)], 14) : List Str × Nat).2 =
      (List.replicate 14 ("h".toList)).length :=
  (C2_cols_equals_header_amended (List.replicate 14 ("h".toList))
    [[("a".toList), ("b".toList), ("c".toList), ("Singapore".toList), ("e".toList),
      ("f".toList), ("g".toList), ("h".toList), ("i".toList), ("j".toList),
      ("k".toList), ("l".toList)]]
    [([("a".toList), ("b".toList), ("c".toList), ("Singapore".toList), ("e".toList),
       ("f".toList), ("g".toList), ("h".toList), ("i".toList), ("j".toList),
       ("k".toList), ("l".toList)], 14)]
    (by decide) _ (by decide)).1

/-- Counterexample for C2 as stated: a file whose header has 14 names and
whose single accepted data row has 12 fields leads to an `update_format` call
with `cols = 14`, not the row's own field count 12. -/
theorem C2_header_cols_counterexample :
    (normalizer_calls (List.replicate 14 ("h".toList))
      [[("a".toList), ("b".toList), ("c".toList), ("Singapore".toList), ("e".toList),
        ("f".toList), ("g".toList), ("h".toList), ("i".toList), ("j".toList),
        ("k".toList), ("l".toList)]]).map (List.map fun p => (p.1.length, p.2)) =
      some [(12, 14)] := by
  decide

/-- C5: under the configured target spec, the classifier accepts every
14-field row whose field at index 3 is "Singapore" regardless of its province
field; rejects every 14-field US/Arizona row with county "Maricopa"; accepts
the same with county "Pima"; and rejects every row whose country field
resolves to "France". -/
theorem C5_classifier_cases :
    (∀ row : List Str, row.length = 14 → row.get? 3 = some ("Singapore".toList) →
      classify_row row = some true) ∧
    (∀ row : List Str, row.length = 14 → row.get? 3 = some ("US".toList) →
      row.get? 2 = some ("Arizona".toList) → row.get? 1 = some ("Maricopa".toList) →
      classify_row row = some false) ∧
    (∀ row : List Str, row.length = 14 → row.get? 3 = some ("US".toList) →
      row.get? 2 = some ("Arizona".toList) → row.get? 1 = some ("Pima".toList) →
      classify_row row = some true) ∧
    (∀ (row : List Str) (i : Nat), country_index row.length = some i →
      pyIdx row (i : Int) = some ("France".toList) → classify_row row = some false) := by
  refine ⟨?_, ?_, ?_, ?_⟩
  · intro row h hc
    have h3 : country_index row.length = some 3 := by rw [h]; decide
    have hp3 : pyIdx row (3 : Int) = some ("Singapore".toList) := by
      simpa [pyIdx] using hc
    simp [classify_row, h3, hp3, lookupStr, target]
  · intro row h hc hprov hcounty
    have h3 : country_index row.length = some 3 := by rw [h]; decide
    have hp3 : pyIdx row (3 : Int) = some ("US".toList) := by
      simpa [pyIdx] using hc
    have hp2 : pyIdx row (2 : Int) = some ("Arizona".toList) := by
      simpa [pyIdx] using hprov
    have hp1 : pyIdx row (1 : Int) = some ("Maricopa".toList) := by
      simpa [pyIdx] using hcounty
    simp [classify_row, h3, hp3, hp2, hp1, lookupStr, target]
  · intro row h hc hprov hcounty
    have h3 : country_index row.length = some 3 := by rw [h]; decide
    have hp3 : pyIdx row (3 : Int) = some ("US".toList) := by
      simpa [pyIdx] using hc
    have hp2 : pyIdx row (2 : Int) = some ("Arizona".toList) := by
      simpa [pyIdx] using hprov
    have hp1 : pyIdx row (1 : Int) = some ("Pima".toList) := by
      simpa [pyIdx] using hcounty
    simp [classify_row, h3, hp3, hp2, hp1, lookupStr, target]
  · intro row i hi hc
    simp [classify_row, hi, hc, lookupStr, target]

/-- Witness for C5 at concrete 14-field rows. -/
theorem C5_classifier_cases_witness :
    classify_row ((List.replicate 14 ("x".toList)).set 3 ("Singapore".toList)) = some true ∧
    classify_row ((((List.replicate 14 ("x".toList)).set 3 ("US".toList)).set 2
      ("Arizona".toList)).set 1 ("Maricopa".toList)) = some false ∧
    classify_row ((((List.replicate 14 ("x".toList)).set 3 ("US".toList)).set 2
      ("Arizona".toList)).set 1 ("Pima".toList)) = some true ∧
    classify_row ((List.replicate 14 ("x".toList)).set 3 ("France".toList)) = some false :=
  ⟨C5_classifier_cases.1 _ (by decide) (by decide),
   C5_classifier_cases.2.1 _ (by decide) (by decide) (by decide) (by decide),
   C5_classifier_cases.2.2.1 _ (by decide) (by decide) (by decide) (by decide),
   C5_classifier_cases.2.2.2 _ 3 (by decide) (by decide)⟩

/-- C10: for every 6-field or 8-field row with country "US" at index 1 and a
province listed in the target spec at index 0, the county-level check reads
the row's last field (Python index `index - 2 = -1` wraps to the final
element), so the row is accepted exactly when its final field is a listed
county under that province. -/
theorem C10_county_reads_last_field (row : List Str) (last : Str)
    (hlen : row.length = 6 ∨ row.length = 8)
    (hus : row.get? 1 = some ("US".toList))
    (haz : row.get? 0 = some ("Arizona".toList))
    (hlast : row.get? (row.length - 1) = some last) :
    classify_row row = some (decide (last ∈ [("Pima".toList)])) := by
  rcases hlen with h | h
  · obtain ⟨a, b, c, e, f, g, rfl⟩ := length_eq_six h
    simp only [List.get?] at hus haz hlast
    obtain rfl := Option.some.inj hus
    obtain rfl := Option.some.inj haz
    obtain rfl := Option.some.inj hlast
    rfl
  · obtain ⟨a, b, c, e, f, g, k, m, rfl⟩ := length_eq_eight h
    simp only [List.get?] at hus haz hlast
    obtain rfl := Option.some.inj hus
    obtain rfl := Option.some.inj haz
    obtain rfl := Option.some.inj hlast
    rfl

/-- Witness for C10: a 6-field row with final field "Pima" is accepted, as
the theorem instantiates to `some true` there. -/
theorem C10_county_reads_last_field_witness :
    classify_row [("Arizona".toList), ("US".toList), ("x".toList), ("y".toList),
      ("z".toList), ("Pima".toList)] =
      some (decide (("Pima".toList) ∈ [("Pima".toList)])) :=
  C10_county_reads_last_field
    [("Arizona".toList), ("US".toList), ("x".toList), ("y".toList),
      ("z".toList), ("Pima".toList)] ("Pima".toList)
    (Or.inl (by decide)) (by decide) (by decide) (by decide)

/-- C6: the incremental resolver returns exactly the filenames strictly after
the one matching the last recorded date, in order; on the three-file example
with last date 01-01-2022 it returns the last two files, and when the last
date equals the final filename it returns the empty sequence (a normal
`some []` outcome, not a failure). -/
theorem C6_resolver_strict_suffix :
    (∀ (lastDate d : Str) (pre post : List Str),
      format_datestr lastDate = some d →
      (d ++ (".csv".toList)) ∉ pre →
      resolver (pre ++ (d ++ (".csv".toList)) :: post) lastDate = some post) ∧
    resolver [("01-01-2022.csv".toList), ("01-02-2022.csv".toList), ("01-03-2022.csv".toList)]
      ("01-01-2022".toList) =
      some [("01-02-2022.csv".toList), ("01-03-2022.csv".toList)] ∧
    resolver [("01-01-2022.csv".toList), ("01-02-2022.csv".toList), ("01-03-2022.csv".toList)]
      ("01-03-2022".toList) = some [] := by
  refine ⟨?_, by decide, by decide⟩
  intro lastDate d pre post hd hpre
  simp only [resolver, hd, index_of_append hpre, drop_append_cons]

/-- Witness for C6 applying the general suffix statement at a concrete list. -/
theorem C6_resolver_strict_suffix_witness :
    resolver ([("01-01-2022.csv".toList)] ++
        ((("01-02-2022".toList) ++ (".csv".toList)) :: [("01-03-2022.csv".toList)]))
      ("01-02-2022".toList) = some [("01-03-2022.csv".toList)] :=
  C6_resolver_strict_suffix.1 ("01-02-2022".toList) ("01-02-2022".toList)
    [("01-01-2022.csv".toList)] [("01-03-2022.csv".toList)] (by decide) (by decide)

/-- C7: whenever the normalized last date with ".csv" appended matches no
filename in the upstream list, the incremental resolver fails instead of
returning a file subset. -/
theorem C7_resolver_missing_date (filenames : List Str) (lastDate d : Str)
    (hd : format_datestr lastDate = some d)
    (hm : (d ++ (".csv".toList)) ∉ filenames) :
    resolver filenames lastDate = none := by
  simp only [resolver, hd, index_of_eq_none hm]

/-- Witness for C7 at a concrete out-of-sync state. -/
theorem C7_resolver_missing_date_witness :
    resolver [("01-01-2022.csv".toList)] ("02-02-2022".toList) = none :=
  C7_resolver_missing_date [("01-01-2022.csv".toList)] ("02-02-2022".toList)
    ("02-02-2022".toList) (by decide) (by decide)

/-- C8 (amended): the date normalizer maps "3/4/2022" to "03-04-2022", and it
is idempotent on already-padded input: any token containing no '/' whose
first two '-'-separated subfields already have at least two characters is
returned unchanged (in particular "03-04-2022"); idempotence does not extend
to every output of the normalizer. -/
theorem C8_datestr_idempotent_amended :
    format_datestr ("3/4/2022".toList) = some ("03-04-2022".toList) ∧
    (∀ (x p0 p1 : Str) (rest : List Str),
      '/' ∉ x → splitChar '-' x = p0 :: p1 :: rest →
      2 ≤ p0.length → 2 ≤ p1.length →
      format_datestr x = some x) := by
  refine ⟨by decide, ?_⟩
  intro x p0 p1 rest hns hsp h0 h1
  have hmem : '-' ∈ x := by
    by_contra hm
    have hone : splitChar '-' x = [x] := splitChar_eq_single hm
    rw [hsp] at hone
    simp at hone
  have hj : joinSep '-' (p0 :: p1 :: rest) = x := by
    have hjs := joinSep_splitChar '-' x
    rw [hsp] at hjs
    exact hjs
  simp [format_datestr, hns, hmem, hsp, zfill_of_le h0, zfill_of_le h1, hj]

/-- Witness for C8 (amended): "03-04-2022" is already padded and is returned
unchanged. -/
theorem C8_datestr_idempotent_witness :
    format_datestr ("03-04-2022".toList) = some ("03-04-2022".toList) :=
  C8_datestr_idempotent_amended.2 ("03-04-2022".toList) ("03".toList) ("04".toList)
    [("2022".toList)] (by decide) (by decide) (by decide) (by decide)

/-- Counterexample for C8 as stated: "3-4-2022" is an output of the
normalizer (on input "3-4/2022") yet is not a fixed point, so the normalizer
is not idempotent on every output of itself. -/
theorem C8_output_not_fixed_counterexample :
    format_datestr ("3-4/2022".toList) = some ("3-4-2022".toList) ∧
    format_datestr ("3-4-2022".toList) = some ("03-04-2022".toList) ∧
    ("3-4-2022".toList) ≠ ("03-04-2022".toList) := by
  decide

/-- C9 (amended): the date normalizer fails exactly on tokens that contain
neither a '/' nor a '-' separator; a token containing a separator but with
fewer than 2 subfields before the year still returns a string. -/
theorem C9_fail_iff_no_separator_amended (x : Str) :
    format_datestr x = none ↔ ('/' ∉ x ∧ '-' ∉ x) := by
  constructor
  · intro hnone
    by_cases hs : '/' ∈ x
    · obtain ⟨p0, p1, rest, hsp⟩ := splitChar_two_of_mem hs
      simp [format_datestr, hs, hsp] at hnone
    · by_cases hm : '-' ∈ x
      · obtain ⟨p0, p1, rest, hsp⟩ := splitChar_two_of_mem hm
        simp [format_datestr, hs, hm, hsp] at hnone
      · exact ⟨hs, hm⟩
  · rintro ⟨hs, hm⟩
    simp [format_datestr, hs, hm]

/-- Witness for C9 (amended): a token with no separator fails. -/
theorem C9_fail_iff_no_separator_witness :
    format_datestr ("xyz".toList) = none :=
  (C9_fail_iff_no_separator_amended ("xyz".toList)).mpr ⟨by decide, by decide⟩

/-- Counterexample for C9 as stated: "3/2022" has only one subfield before
the year, yet the normalizer returns a string instead of failing. -/
theorem C9_single_subfield_counterexample :
    format_datestr ("3/2022".toList) = some ("03-2022".toList) := by
  decide

end CsvExtractor
